import Mathlib

/-!
Shallow embedding of the binary record codec of `aircon.py`
(mitsubishi-wf-rac): the field codec primitives (`AttrByte`,
`AttrByteEnum`, `AttrAggregateEnum`), the `Settings` record with its
`to_bytes` serialization and `crc` checksum, and the outdoor temperature
lookup table.

Python integers are modelled as `Nat` (all reachable values are
nonnegative); Python's dynamically typed attribute values are modelled by
the small universe `PyVal` (`None`, `bool`, numbers), with Python
truthiness and `==` modelled explicitly.  Mutation of a field object is
modelled by explicit state passing on `FieldState`; mutation of the byte
buffer is modelled by `List.set`.
-/

/-- A Python value as stored in a field's `value` slot: `None`, a `bool`
(from `of_byte` of the on/off field), or a number (`int`/`float`, both
modelled as `ℚ`; every reachable `float` here is a half-integer, so `ℚ`
is exact). -/
inductive PyVal where
  | vnone
  | vbool (b : Bool)
  | vnum (q : ℚ)
deriving DecidableEq

/-- Python truthiness: `None` and numeric zero are falsy. -/
def pyTruthy : PyVal → Bool
  | .vnone => false
  | .vbool b => b
  | .vnum q => q != 0

/-- Numeric coercion (Python arithmetic context): `True = 1`, `False = 0`.
`None` would raise `TypeError` in Python; it is unreachable in every use
below (the truthiness guard in `apply` replaces it by `0` first). -/
def pyToQ : PyVal → ℚ
  | .vnone => 0
  | .vbool b => if b then 1 else 0
  | .vnum q => q

/-- Python `==` between stored values and table literals: `None` equals
only `None`; `bool`s compare numerically with numbers (`True == 1`). -/
def pyEq : PyVal → PyVal → Bool
  | .vnone, .vnone => true
  | .vnone, _ => false
  | _, .vnone => false
  | a, b => pyToQ a == pyToQ b

/-- Python `int(q)`: truncation toward zero (`Int.tdiv` is T-division),
then viewed as a byte value (`ℕ`; all reachable values are nonnegative). -/
def ratTruncToNat (q : ℚ) : ℕ := Int.toNat (Int.tdiv q.num (q.den : ℤ))

/-- Python `int(q * 2)`, computed on the exact `num/den` representation:
`q * 2` is the unreduced fraction `(2 num)/den`, whose truncated quotient
equals `tdiv (2 num) den` (cancelling the gcd does not change a
T-quotient).  Stated and proved as `pyIntTimes2_eq_trunc_mul` below. -/
def pyIntTimes2 (q : ℚ) : ℕ := Int.toNat (Int.tdiv (q.num * 2) (q.den : ℤ))

/-- A numeric Python value used where an `int` byte is expected. -/
def pyToNat (v : PyVal) : ℕ := ratTruncToNat (pyToQ v)

/-- Python `b & ~c` for nonnegative `b`, `c`: clear in `b` the bits of
`c`. -/
def clearBits (b c : ℕ) : ℕ := b ^^^ (b &&& c)

/-- The mutable part of an `AttrByte` object: its decoded `value` and its
`is_control` flag. -/
structure FieldState where
  value : PyVal
  is_control : Bool
deriving DecidableEq

/-- Constructor arguments of `AttrByte`: byte position, optional mask,
optional control bit, optional encode/decode transforms.  Python tests
`mask`/`controlbit` for truthiness (`None` and `0` behave identically),
so both are modelled as `ℕ` with `0` standing for "unset". -/
structure AttrCfg where
  bytepos : ℕ
  mask : ℕ
  controlbit : ℕ
  to_byte : Option (PyVal → ℕ)
  of_byte : Option (ℕ → PyVal)

/-- The byte-level part of `AttrByte.set_from_bytes`, acting on the byte
read at `bytepos`: mask, record and strip the control bit, apply the
decode transform. -/
def decodeByteF (cfg : AttrCfg) (st : FieldState) (b : ℕ) : FieldState :=
  let b1 := if cfg.mask ≠ 0 then b &&& cfg.mask else b
  let ic := if cfg.controlbit ≠ 0 then b1 &&& cfg.controlbit ≠ 0 else st.is_control
  let b2 := if cfg.controlbit ≠ 0 then clearBits b1 cfg.controlbit else b1
  let v := match cfg.of_byte with
    | some f => f b2
    | none => .vnum b2
  ⟨v, ic⟩

/-- `AttrByte.set_from_bytes`: decode the byte at `bytepos` into the
field state. -/
def AttrByte.set_from_bytes (cfg : AttrCfg) (st : FieldState) (buf : List ℕ) : FieldState :=
  decodeByteF cfg st (buf.getD cfg.bytepos 0)

/-- The byte value OR-ed into the buffer by `AttrByte.apply`: the stored
value (with falsy values collapsed to `0`), encoded, masked, and with the
control bit OR-ed in when commanded. -/
def encodeByteF (cfg : AttrCfg) (st : FieldState) (ic : Bool) : ℕ :=
  let v := if pyTruthy st.value then st.value else .vnum 0
  let b0 := match cfg.to_byte with
    | some f => f v
    | none => pyToNat v
  let b1 := if cfg.mask ≠ 0 then b0 &&& cfg.mask else b0
  if ic = true ∧ cfg.controlbit ≠ 0 then b1 ||| cfg.controlbit else b1

/-- `AttrByte.apply`: combine the encoded byte into the destination
buffer at `bytepos` with bitwise OR.  An `is_control` argument of `none`
models Python's `is_control=None` default (use the stored flag). -/
def AttrByte.apply (cfg : AttrCfg) (st : FieldState) (buf : List ℕ) (ic : Option Bool) : List ℕ :=
  buf.set cfg.bytepos (buf.getD cfg.bytepos 0 ||| encodeByteF cfg st (ic.getD st.is_control))

/-- One inner-loop iteration of `Settings.crc` (`i2` counts `0..7`,
consuming the bits of `b` MSB-first). -/
def crcBit (b : ℕ) (i : ℕ) (i2 : ℕ) : ℕ :=
  let z : Bool := decide (((i >>> 15) &&& 1) = 1)
  let z2 : Bool := decide (((b >>> (7 - i2)) &&& 1) = 1)
  let i3 := i <<< 1
  if z2 ≠ z then i3 ^^^ 4129 else i3

/-- The per-byte loop of `Settings.crc`: eight `crcBit` steps. -/
def crcByte (i b : ℕ) : ℕ := (List.range 8).foldl (crcBit b) i

/-- `Settings.crc`: the register fold over the whole input (the Python
register is an unbounded `int`; it is reduced mod 2^16 only at the end). -/
def crcReg (byte_array : List ℕ) : ℕ := byte_array.foldl crcByte 65535

/-- `Settings.crc`: initial register 65535, bit-at-a-time feedback with
4129, final 16-bit reduction, two output bytes low-byte first. -/
def Settings.crc (byte_array : List ℕ) : List ℕ :=
  let i := crcReg byte_array &&& 65535
  [i &&& 255, (i >>> 8) &&& 255]

/-- Modelled from the spec (refinement comparison for the checksum
claim): one bit step of a CRC-16 with polynomial feedback constant 4129
whose register is kept to 16 bits. -/
def crc16StepSpec (r : ℕ) (bit : Bool) : ℕ :=
  if bit ≠ r.testBit 15 then ((r <<< 1) ^^^ 4129) % 65536 else (r <<< 1) % 65536

/-- Modelled from the spec: the bits of a byte, MSB first. -/
def byteBitsMSB (b : ℕ) : List Bool := (List.range 8).map (fun i2 => b.testBit (7 - i2))

/-- Modelled from the spec: CRC-16, each byte bit-at-a-time MSB-first (8
iterations per byte), feedback constant 4129, initial register 65535,
16-bit register state. -/
def crc16Spec (bs : List ℕ) : ℕ :=
  bs.foldl (fun r b => (byteBitsMSB b).foldl crc16StepSpec r) 65535

/-- `AttrByteEnum`'s `of_byte` hook: the `byte_to_val` dictionary lookup
(raw byte → logical code); a missing raw byte yields `None`.  The raw
keys of every table are distinct, so first-match equals dict lookup. -/
def enumOfByte (values : List (ℕ × ℕ × String)) : ℕ → PyVal := fun b =>
  match values.find? (fun r => r.1 == b) with
  | some r => .vnum (r.2.1 : ℚ)
  | none => .vnone

/-- `AttrByteEnum`'s `to_byte` hook: the `val_to_byte` dictionary lookup
(logical code → raw byte), with Python `==` key comparison.  A missing
code would make Python return `None` and crash in the following `&=`;
that case is unreachable (every stored code is in the table, and code `0`
is in every table), so it is modelled as `0`. -/
def enumToByte (values : List (ℕ × ℕ × String)) : PyVal → ℕ := fun v =>
  match values.find? (fun r => pyEq (.vnum (r.2.1 : ℚ)) v) with
  | some r => r.1
  | none => 0

/-- `Settings.op_mode` enumeration table `(raw byte, code, name)`. -/
def opModeValues : List (ℕ × ℕ × String) :=
  [(0, 0, "Auto"), (8, 1, "Cool"), (16, 2, "Heat"), (12, 3, "Fan"), (4, 4, "Dry")]

/-- `Settings.airflow` enumeration table. -/
def airflowValues : List (ℕ × ℕ × String) :=
  [(7, 0, "Auto"), (0, 1, "|"), (1, 2, "||"), (2, 3, "|||"), (6, 4, "||||")]

/-- `Settings.entrust` (3D Auto) enumeration table. -/
def entrustValues : List (ℕ × ℕ × String) :=
  [(0, 0, "Off"), (4, 1, "On")]

/-- `Settings.on_off`: byte 2, mask 3, control bit 2, boolean transforms. -/
def Settings.on_off : AttrCfg :=
  { bytepos := 2, mask := 3, controlbit := 2,
    to_byte := some (fun v => if pyTruthy v then 1 else 0),
    of_byte := some (fun b => .vbool (b == 1)) }

/-- `Settings.preset_temp`: byte 4, no mask, control bit 128, half-degree
scaling transforms (`float(b)/2.0` is the exact rational `mkRat b 2`;
`int(v*2)` is `pyIntTimes2`). -/
def Settings.preset_temp : AttrCfg :=
  { bytepos := 4, mask := 0, controlbit := 128,
    to_byte := some (fun v => pyIntTimes2 (pyToQ v)),
    of_byte := some (fun b => .vnum (mkRat b 2)) }

/-- `Settings.op_mode`: byte 2, mask 60, control bit 32, enumerated. -/
def Settings.op_mode : AttrCfg :=
  { bytepos := 2, mask := 60, controlbit := 32,
    to_byte := some (enumToByte opModeValues),
    of_byte := some (enumOfByte opModeValues) }

/-- `Settings.airflow`: byte 3, mask 15, control bit 8, enumerated. -/
def Settings.airflow : AttrCfg :=
  { bytepos := 3, mask := 15, controlbit := 8,
    to_byte := some (enumToByte airflowValues),
    of_byte := some (enumOfByte airflowValues) }

/-- `Settings.entrust`: byte 12, mask 12, control bit 8, enumerated. -/
def Settings.entrust : AttrCfg :=
  { bytepos := 12, mask := 12, controlbit := 8,
    to_byte := some (enumToByte entrustValues),
    of_byte := some (enumOfByte entrustValues) }

/-- `Settings.model_no`: byte 0, mask 127, no control bit, no transforms. -/
def Settings.model_no : AttrCfg :=
  { bytepos := 0, mask := 127, controlbit := 0, to_byte := none, of_byte := none }

/-- `Settings.cool_hot_judge`: byte 8, mask 8, no control bit, decode
transform `0 if b <= 0 else 1` and no encode transform. -/
def Settings.cool_hot_judge : AttrCfg :=
  { bytepos := 8, mask := 8, controlbit := 0, to_byte := none,
    of_byte := some (fun b => .vnum (if b ≤ 0 then 0 else 1)) }

/-- `Settings.vacant_property`: byte 10, mask 1. -/
def Settings.vacant_property : AttrCfg :=
  { bytepos := 10, mask := 1, controlbit := 0, to_byte := none, of_byte := none }

/-- `Settings.self_clean`: byte 15, mask 15. -/
def Settings.self_clean : AttrCfg :=
  { bytepos := 15, mask := 15, controlbit := 0, to_byte := none, of_byte := none }

/-- First component of `Settings.wind_dir_ud`: byte 2, mask 192, control
bit 128. -/
def Settings.wind_ud_auto : AttrCfg :=
  { bytepos := 2, mask := 192, controlbit := 128, to_byte := none, of_byte := none }

/-- Second component of `Settings.wind_dir_ud`: byte 3, mask 240, control
bit 128. -/
def Settings.wind_ud_pos : AttrCfg :=
  { bytepos := 3, mask := 240, controlbit := 128, to_byte := none, of_byte := none }

/-- First component of `Settings.wind_dir_lr`: byte 12, mask 3, control
bit 2. -/
def Settings.wind_lr_auto : AttrCfg :=
  { bytepos := 12, mask := 3, controlbit := 2, to_byte := none, of_byte := none }

/-- Second component of `Settings.wind_dir_lr`: byte 11, mask 31, control
bit 16. -/
def Settings.wind_lr_pos : AttrCfg :=
  { bytepos := 11, mask := 31, controlbit := 16, to_byte := none, of_byte := none }

/-- One row of an `AttrAggregateEnum` table: a pattern over the component
values (`none` = "don't care"), the logical code, the display name. -/
abbrev AggRow : Type := List (Option ℕ) × ℕ × String

/-- `Settings.wind_dir_ud` table. -/
def windDirUdValues : List AggRow :=
  [([some 64, none], 0, "auto"),
   ([some 0, some 0], 1, "1"),
   ([some 0, some 16], 2, "2"),
   ([some 0, some 32], 3, "3"),
   ([some 0, some 48], 4, "4")]

/-- `Settings.wind_dir_lr` table. -/
def windDirLrValues : List AggRow :=
  [([some 1, none], 0, "auto"),
   ([some 0, some 0], 1, "1"),
   ([some 0, some 1], 2, "2"),
   ([some 0, some 2], 3, "3"),
   ([some 0, some 3], 4, "4"),
   ([some 0, some 4], 5, "5"),
   ([some 0, some 5], 6, "6"),
   ([some 0, some 6], 7, "7")]

/-- The generator condition of the aggregate getter: every pattern slot
is `None` ("don't care", matches anything) or `==` the corresponding
component value.  The second clause (pattern longer than the value tuple)
would be an `IndexError` in Python and is unreachable: every table
pattern has exactly as many slots as the aggregate has components. -/
def rowMatches : List (Option ℕ) → List PyVal → Bool
  | [], _ => true
  | _ :: _, [] => false
  | none :: ks, _ :: vs => rowMatches ks vs
  | some n :: ks, v :: vs => pyEq (.vnum (n : ℚ)) v && rowMatches ks vs

/-- The row scan of the `AttrAggregateEnum.value` getter: first matching
row wins. -/
def aggValueLoop : List AggRow → List PyVal → Option ℕ
  | [], _ => none
  | (k, v, _) :: rest, vs => if rowMatches k vs then some v else aggValueLoop rest vs

/-- `AttrAggregateEnum.value` (getter): recomputed on every read from the
current component values; `none` models Python `None` (no row matched). -/
def AttrAggregateEnum.value (values : List AggRow) (sts : List FieldState) : Option ℕ :=
  aggValueLoop values (sts.map FieldState.value)

/-- A pattern slot pushed down into a component's `value` by the setter. -/
def optToPyVal : Option ℕ → PyVal
  | none => .vnone
  | some n => .vnum (n : ℚ)

/-- The setter's mutation loop `for i, c_value in enumerate(k):
components[i].set(c_value)`: every component is set to its slot's value
(including `None` slots).  The `_, [] => []` clause would be an
`IndexError` in Python and is unreachable (patterns are never longer than
the component list). -/
def applyPattern : List (Option ℕ) → List FieldState → List FieldState
  | [], rest => rest
  | _, [] => []
  | kv :: ks, st :: rest => ⟨optToPyVal kv, st.is_control⟩ :: applyPattern ks rest

/-- The row scan of the `AttrAggregateEnum.value` setter: mutate the
components at the first row whose code equals the requested value, else
fall through to the `ValueError`. -/
def aggSetLoop (name : String) : List AggRow → List FieldState → ℕ → Except String Unit × List FieldState
  | [], sts, code =>
    (.error (toString code ++ " isn't a valid value for " ++ name), sts)
  | (k, v, _) :: rest, sts, code =>
    if v = code then (.ok (), applyPattern k sts) else aggSetLoop name rest sts code

/-- `AttrAggregateEnum.value` (setter): `None` clears every component's
value; otherwise look up the row by code and push its pattern down, or
raise `ValueError` (modelled as `Except.error`, with the component states
returned unchanged exactly because Python scans before mutating). -/
def AttrAggregateEnum.value_set (name : String) (values : List AggRow)
    (sts : List FieldState) (v : Option ℕ) : Except String Unit × List FieldState :=
  match v with
  | none => (.ok (), sts.map (fun st => ⟨.vnone, st.is_control⟩))
  | some code => aggSetLoop name values sts code

/-- The mutable state of a `Settings` record: one `FieldState` per
`AttrByte`, the two aggregates being represented by their component
fields (the aggregate's own logical value is always recomputed). -/
structure SettingsState where
  on_off : FieldState
  preset_temp : FieldState
  op_mode : FieldState
  airflow : FieldState
  entrust : FieldState
  model_no : FieldState
  cool_hot_judge : FieldState
  vacant_property : FieldState
  self_clean : FieldState
  wind_ud_auto : FieldState
  wind_ud_pos : FieldState
  wind_lr_auto : FieldState
  wind_lr_pos : FieldState
deriving DecidableEq

/-- A freshly constructed `Settings` record: every field has
`value = None`, `is_control = False`. -/
def SettingsState.init : SettingsState :=
  { on_off := ⟨.vnone, false⟩, preset_temp := ⟨.vnone, false⟩,
    op_mode := ⟨.vnone, false⟩, airflow := ⟨.vnone, false⟩,
    entrust := ⟨.vnone, false⟩, model_no := ⟨.vnone, false⟩,
    cool_hot_judge := ⟨.vnone, false⟩, vacant_property := ⟨.vnone, false⟩,
    self_clean := ⟨.vnone, false⟩, wind_ud_auto := ⟨.vnone, false⟩,
    wind_ud_pos := ⟨.vnone, false⟩, wind_lr_auto := ⟨.vnone, false⟩,
    wind_lr_pos := ⟨.vnone, false⟩ }

/-- One pass of `Settings.to_bytes`: an 18-byte zero buffer with byte 5
forced to 255, every field's `apply` in declaration order (the two
aggregates delegating to their components in construction order), then
the five fixed trailer bytes. -/
def Settings.applySection (s : SettingsState) (ic : Bool) : List ℕ :=
  let buf := (List.replicate 18 0).set 5 255
  let buf := AttrByte.apply Settings.on_off s.on_off buf (some ic)
  let buf := AttrByte.apply Settings.preset_temp s.preset_temp buf (some ic)
  let buf := AttrByte.apply Settings.op_mode s.op_mode buf (some ic)
  let buf := AttrByte.apply Settings.airflow s.airflow buf (some ic)
  let buf := AttrByte.apply Settings.entrust s.entrust buf (some ic)
  let buf := AttrByte.apply Settings.model_no s.model_no buf (some ic)
  let buf := AttrByte.apply Settings.cool_hot_judge s.cool_hot_judge buf (some ic)
  let buf := AttrByte.apply Settings.vacant_property s.vacant_property buf (some ic)
  let buf := AttrByte.apply Settings.self_clean s.self_clean buf (some ic)
  let buf := AttrByte.apply Settings.wind_ud_auto s.wind_ud_auto buf (some ic)
  let buf := AttrByte.apply Settings.wind_ud_pos s.wind_ud_pos buf (some ic)
  let buf := AttrByte.apply Settings.wind_lr_auto s.wind_lr_auto buf (some ic)
  let buf := AttrByte.apply Settings.wind_lr_pos s.wind_lr_pos buf (some ic)
  buf ++ [1, 255, 255, 255, 255]

/-- `Settings.to_bytes`: the loop `for is_control in [True, False]`, each
pass contributing its section followed by that section's checksum. -/
def Settings.to_bytes (s : SettingsState) : List ℕ :=
  [true, false].foldl (fun acc ic =>
    let buf := Settings.applySection s ic
    acc ++ (buf ++ Settings.crc buf)) []

/-- Modelled from the spec (refinement comparison for the encode-pass
claim): the same serialization but with both passes invoking every
field's apply step with `is_control=True`. -/
def Settings.to_bytes_both_control (s : SettingsState) : List ℕ :=
  [true, true].foldl (fun acc ic =>
    let buf := Settings.applySection s ic
    acc ++ (buf ++ Settings.crc buf)) []

/-- `OUTDOOR_TEMPS`: the 256-entry outdoor temperature calibration table
(raw byte → degrees Celsius), reproduced verbatim. -/
def OUTDOOR_TEMPS : List ℚ :=
  [-50.0, -50.0, -50.0, -50.0, -50.0, -48.9, -46.0, -44.0, -42.0, -41.0,
   -39.0, -38.0, -37.0, -36.0, -35.0, -34.0, -33.0, -32.0, -31.0, -30.0,
   -29.0, -28.5, -28.0, -27.0, -26.0, -25.5, -25.0, -24.0, -23.5, -23.0,
   -22.5, -22.0, -21.5, -21.0, -20.5, -20.0, -19.5, -19.0, -18.5, -18.0,
   -17.5, -17.0, -16.5, -16.0, -15.5, -15.0, -14.6, -14.3, -14.0, -13.5,
   -13.0, -12.6, -12.3, -12.0, -11.5, -11.0, -10.6, -10.3, -10.0, -9.6,
   -9.3, -9.0, -8.6, -8.3, -8.0, -7.6, -7.3, -7.0, -6.6, -6.3,
   -6.0, -5.6, -5.3, -5.0, -4.6, -4.3, -4.0, -3.7, -3.5, -3.2,
   -3.0, -2.6, -2.3, -2.0, -1.7, -1.5, -1.2, -1.0, -0.6, -0.3,
   0.0, 0.2, 0.5, 0.7, 1.0, 1.3, 1.6, 2.0, 2.2, 2.5,
   2.7, 3.0, 3.2, 3.5, 3.7, 4.0, 4.2, 4.5, 4.7, 5.0,
   5.2, 5.5, 5.7, 6.0, 6.2, 6.5, 6.7, 7.0, 7.2, 7.5,
   7.7, 8.0, 8.2, 8.5, 8.7, 9.0, 9.2, 9.5, 9.7, 10.0,
   10.2, 10.5, 10.7, 11.0, 11.2, 11.5, 11.7, 12.0, 12.2, 12.5,
   12.7, 13.0, 13.2, 13.5, 13.7, 14.0, 14.2, 14.4, 14.6, 14.8,
   15.0, 15.2, 15.5, 15.7, 16.0, 16.2, 16.5, 16.7, 17.0, 17.2,
   17.5, 17.7, 18.0, 18.2, 18.5, 18.7, 19.0, 19.2, 19.4, 19.6,
   19.8, 20.0, 20.2, 20.5, 20.7, 21.0, 21.2, 21.5, 21.7, 22.0,
   22.2, 22.5, 22.7, 23.0, 23.2, 23.5, 23.7, 24.0, 24.2, 24.5,
   24.7, 25.0, 25.2, 25.5, 25.7, 26.0, 26.2, 26.5, 26.7, 27.0,
   27.2, 27.5, 27.7, 28.0, 28.2, 28.5, 28.7, 29.0, 29.2, 29.5,
   29.7, 30.0, 30.2, 30.5, 30.7, 31.0, 31.3, 31.6, 32.0, 32.2,
   32.5, 32.7, 33.0, 33.2, 33.5, 33.7, 34.0, 34.3, 34.6, 35.0,
   35.2, 35.5, 35.7, 36.0, 36.3, 36.6, 37.0, 37.2, 37.5, 37.7,
   38.0, 38.3, 38.6, 39.0, 39.3, 39.6, 40.0, 40.3, 40.6, 41.0,
   41.3, 41.6, 42.0, 42.3, 42.6, 43.0]

/-- The decode-then-reencode round trip of one atomic field: decode
`buf`, then apply onto a zeroed 18-byte buffer holding the control-bit
decision fixed at the decoded one; the claim is that this reproduces the
masked bits of `buf` at `bytepos` (the whole byte when no mask is set). -/
def roundTrips (cfg : AttrCfg) (st0 : FieldState) (buf : List ℕ) : Prop :=
  let st := AttrByte.set_from_bytes cfg st0 buf
  let out := AttrByte.apply cfg st (List.replicate 18 0) (some st.is_control)
  out.getD cfg.bytepos 0 =
    (if cfg.mask ≠ 0 then buf.getD cfg.bytepos 0 &&& cfg.mask else buf.getD cfg.bytepos 0)

/-- The masked, control-bit-stripped raw byte a field decodes from
`buf` (the value handed to `of_byte`). -/
def stripRaw (cfg : AttrCfg) (buf : List ℕ) : ℕ :=
  let b1 := if cfg.mask ≠ 0 then buf.getD cfg.bytepos 0 &&& cfg.mask else buf.getD cfg.bytepos 0
  if cfg.controlbit ≠ 0 then clearBits b1 cfg.controlbit else b1

deriving instance DecidableEq for Except

instance roundTripsDecidable (cfg : AttrCfg) (st0 : FieldState) (buf : List ℕ) :
    Decidable (roundTrips cfg st0 buf) := by
  unfold roundTrips
  infer_instance

theorem clearBits_or_cancel (b m : ℕ) : clearBits b m ||| (b &&& m) = b := by
  apply Nat.eq_of_testBit_eq
  intro j
  simp only [clearBits, Nat.testBit_or, Nat.testBit_xor, Nat.testBit_and]
  cases b.testBit j <;> cases m.testBit j <;> rfl

theorem and_or_self_absorb (b x : ℕ) : b &&& (b ||| x) = b := by
  apply Nat.eq_of_testBit_eq
  intro j
  simp only [Nat.testBit_or, Nat.testBit_and]
  cases b.testBit j <;> cases x.testBit j <;> rfl

theorem and_and_self_right (b m : ℕ) : (b &&& m) &&& m = b &&& m := by
  rw [Nat.and_assoc, Nat.and_self]

theorem decide_shift_and_one (x k : ℕ) :
    (decide (((x >>> k) &&& 1) = 1)) = x.testBit k := by
  rw [Nat.and_one_is_mod, Nat.shiftRight_eq_div_pow, Nat.testBit_to_div_mod]

theorem testBit15_mod65536 (i : ℕ) : (i % 65536).testBit 15 = i.testBit 15 := by
  have h : (65536 : ℕ) = 2 ^ 16 := by norm_num
  rw [h, Nat.testBit_mod_two_pow]
  simp

theorem and_65535_eq_mod (x : ℕ) : x &&& 65535 = x % 65536 := by
  have h1 : (65535 : ℕ) = 2 ^ 16 - 1 := by norm_num
  have h2 : (65536 : ℕ) = 2 ^ 16 := by norm_num
  rw [h1, h2, Nat.and_pow_two_sub_one_eq_mod]

theorem and_255_eq_mod (x : ℕ) : x &&& 255 = x % 256 := by
  have h1 : (255 : ℕ) = 2 ^ 8 - 1 := by norm_num
  have h2 : (256 : ℕ) = 2 ^ 8 := by norm_num
  rw [h1, h2, Nat.and_pow_two_sub_one_eq_mod]

theorem crc_shl_mod (i : ℕ) : (i <<< 1) % 65536 = ((i % 65536) <<< 1) % 65536 := by
  rw [Nat.shiftLeft_eq, Nat.shiftLeft_eq, pow_one]
  omega

theorem crc_shl_xor_mod (i : ℕ) :
    ((i <<< 1) ^^^ 4129) % 65536 = (((i % 65536) <<< 1) ^^^ 4129) % 65536 := by
  have h4129 : (4129 : ℕ) &&& 65535 = 4129 := by decide
  calc ((i <<< 1) ^^^ 4129) % 65536
      = ((i <<< 1) ^^^ 4129) &&& 65535 := (and_65535_eq_mod _).symm
    _ = ((i <<< 1) &&& 65535) ^^^ (4129 &&& 65535) := Nat.and_xor_distrib_right
    _ = ((i <<< 1) % 65536) ^^^ 4129 := by rw [and_65535_eq_mod, h4129]
    _ = (((i % 65536) <<< 1) % 65536) ^^^ 4129 := by rw [crc_shl_mod]
    _ = (((i % 65536) <<< 1) &&& 65535) ^^^ (4129 &&& 65535) := by rw [and_65535_eq_mod, h4129]
    _ = (((i % 65536) <<< 1) ^^^ 4129) &&& 65535 := Nat.and_xor_distrib_right.symm
    _ = (((i % 65536) <<< 1) ^^^ 4129) % 65536 := and_65535_eq_mod _

theorem crcBit_mod (b i i2 : ℕ) :
    (crcBit b i i2) % 65536 = crc16StepSpec (i % 65536) (b.testBit (7 - i2)) := by
  simp only [crcBit, crc16StepSpec, decide_shift_and_one, testBit15_mod65536]
  by_cases h : b.testBit (7 - i2) = i.testBit 15
  · simp [h, crc_shl_mod]
  · simp [h, crc_shl_xor_mod]

theorem crcByte_mod (i b : ℕ) :
    (crcByte i b) % 65536 = (byteBitsMSB b).foldl crc16StepSpec (i % 65536) := by
  show ((List.range 8).foldl (crcBit b) i) % 65536 = _
  simp only [byteBitsMSB]
  rw [show List.range 8 = [0, 1, 2, 3, 4, 5, 6, 7] from rfl]
  simp only [List.foldl, List.map]
  rw [crcBit_mod, crcBit_mod, crcBit_mod, crcBit_mod, crcBit_mod, crcBit_mod, crcBit_mod,
    crcBit_mod]

theorem crcReg_mod_fold (bs : List ℕ) : ∀ i : ℕ,
    (bs.foldl crcByte i) % 65536 =
      bs.foldl (fun r b => (byteBitsMSB b).foldl crc16StepSpec r) (i % 65536) := by
  induction bs with
  | nil => intro i; rfl
  | cons b rest ih =>
    intro i
    simp only [List.foldl]
    rw [ih, crcByte_mod]
    rfl

theorem crc16Spec_eq_mod (bs : List ℕ) : crc16Spec bs = crcReg bs % 65536 := by
  unfold crc16Spec crcReg
  rw [crcReg_mod_fold bs 65535]

/-- **C2**: `Settings.crc` computes a CRC-16 over its input, bit-at-a-time
MSB-first (8 iterations per byte), feedback constant 4129, initial
register 65535, and emits the 16-bit result as two bytes little-endian
(low byte first): it agrees with the 16-bit-register specification
`crc16Spec` everywhere. -/
theorem crc_is_crc16_le (bs : List ℕ) :
    crc16Spec bs < 65536 ∧
    Settings.crc bs = [crc16Spec bs % 256, crc16Spec bs / 256] := by
  have hlt : crc16Spec bs < 65536 := by
    rw [crc16Spec_eq_mod]
    exact Nat.mod_lt _ (by norm_num)
  refine ⟨hlt, ?_⟩
  simp only [Settings.crc]
  rw [and_65535_eq_mod, ← crc16Spec_eq_mod]
  have e1 : crc16Spec bs &&& 255 = crc16Spec bs % 256 := and_255_eq_mod _
  have e2 : (crc16Spec bs >>> 8) &&& 255 = crc16Spec bs / 256 := by
    rw [and_255_eq_mod, Nat.shiftRight_eq_div_pow]
    norm_num
    omega
  rw [e1, e2]

theorem apply_length (cfg : AttrCfg) (st : FieldState) (buf : List ℕ) (ic : Option Bool) :
    (AttrByte.apply cfg st buf ic).length = buf.length := by
  simp [AttrByte.apply]

theorem applySection_length (s : SettingsState) (ic : Bool) :
    (Settings.applySection s ic).length = 23 := by
  simp [Settings.applySection, apply_length]

theorem crc_length (bs : List ℕ) : (Settings.crc bs).length = 2 := by
  simp [Settings.crc]

set_option maxRecDepth 100000 in
/-- **C1** (counterexample): the two encode passes are not both
`is_control=True`: on a freshly constructed record, `to_bytes` differs
from the both-passes-`True` variant (their second sections differ in the
control bits). -/
theorem to_bytes_not_both_control_cex :
    Settings.to_bytes SettingsState.init ≠ Settings.to_bytes_both_control SettingsState.init := by
  decide

/-- **C1** (amended): `to_bytes` makes two passes, the first invoking
every field's apply step with `is_control=True` and the second invoking
every field's apply step with `is_control=False`: the payload is the
`is_control=true` section with its checksum followed by the
`is_control=false` section with its checksum, and each section hands its
pass's flag to all thirteen field applications. -/
theorem to_bytes_pass_controls (s : SettingsState) :
    Settings.to_bytes s =
      Settings.applySection s true ++ Settings.crc (Settings.applySection s true) ++
        (Settings.applySection s false ++ Settings.crc (Settings.applySection s false)) ∧
    ∀ ic : Bool, Settings.applySection s ic =
      AttrByte.apply Settings.wind_lr_pos s.wind_lr_pos (AttrByte.apply Settings.wind_lr_auto s.wind_lr_auto (AttrByte.apply Settings.wind_ud_pos s.wind_ud_pos (AttrByte.apply Settings.wind_ud_auto s.wind_ud_auto (AttrByte.apply Settings.self_clean s.self_clean (AttrByte.apply Settings.vacant_property s.vacant_property (AttrByte.apply Settings.cool_hot_judge s.cool_hot_judge (AttrByte.apply Settings.model_no s.model_no (AttrByte.apply Settings.entrust s.entrust (AttrByte.apply Settings.airflow s.airflow (AttrByte.apply Settings.op_mode s.op_mode (AttrByte.apply Settings.preset_temp s.preset_temp (AttrByte.apply Settings.on_off s.on_off ((List.replicate 18 0).set 5 255) (some ic)) (some ic)) (some ic)) (some ic)) (some ic)) (some ic)) (some ic)) (some ic)) (some ic)) (some ic)) (some ic)) (some ic)) (some ic)
        ++ [1, 255, 255, 255, 255] :=
  ⟨rfl, fun _ => rfl⟩

set_option maxRecDepth 100000 in
/-- **C4** (counterexample): the command payload of a freshly constructed
record is not 46 bytes long (it is 50). -/
theorem to_bytes_length_cex : (Settings.to_bytes SettingsState.init).length ≠ 46 := by
  decide

/-- **C4** (amended): `to_bytes` returns a command payload of exactly 50
bytes: the 23-byte control section followed by its 2-byte checksum,
followed by the 23-byte value section followed by its 2-byte checksum. -/
theorem to_bytes_length_structure (s : SettingsState) :
    (Settings.to_bytes s).length = 50 ∧
    Settings.to_bytes s =
      (Settings.applySection s true ++ Settings.crc (Settings.applySection s true)) ++
      (Settings.applySection s false ++ Settings.crc (Settings.applySection s false)) ∧
    (Settings.applySection s true).length = 23 ∧
    (Settings.applySection s false).length = 23 ∧
    (Settings.crc (Settings.applySection s true)).length = 2 ∧
    (Settings.crc (Settings.applySection s false)).length = 2 := by
  refine ⟨?_, ?_, applySection_length s true, applySection_length s false,
    crc_length _, crc_length _⟩
  · simp [Settings.to_bytes, applySection_length, crc_length]
  · simp [Settings.to_bytes]

set_option maxRecDepth 8000 in
theorem outdoor_temps_length : OUTDOOR_TEMPS.length = 256 := by rfl

set_option maxRecDepth 8000 in
/-- **C8** (counterexample): looking up the outdoor temperature table at
raw byte 255 does not fail: 255 is inside the 256-entry table and the
lookup returns 43.0. -/
theorem outdoor_temps_255_cex :
    255 < OUTDOOR_TEMPS.length ∧ OUTDOOR_TEMPS.getD 255 0 = 43 := by
  constructor
  · rw [outdoor_temps_length]
    norm_num
  · norm_num [OUTDOOR_TEMPS]

set_option maxRecDepth 8000 in
/-- **C8** (amended): the outdoor temperature table yields -50.0 at raw
byte 0; it has 256 entries, so raw byte 255 is its last in-range index
(yielding 43.0) and only indices of 256 or more fail the lookup. -/
theorem outdoor_temps_bounds :
    OUTDOOR_TEMPS.getD 0 0 = -50 ∧
    OUTDOOR_TEMPS.length = 256 ∧
    OUTDOOR_TEMPS.getD 255 0 = 43 ∧
    OUTDOOR_TEMPS[256]? = none := by
  refine ⟨?_, outdoor_temps_length, ?_, ?_⟩
  · norm_num [OUTDOOR_TEMPS]
  · norm_num [OUTDOOR_TEMPS]
  · apply List.getElem?_eq_none
    rw [outdoor_temps_length]

/-- **C9**: for every atomic field and buffer long enough to index,
`AttrByte.apply` touches only the byte at `bytepos`, and only by
bitwise OR: the length is unchanged, every other byte is exactly
unchanged, the byte at `bytepos` is the old byte OR-ed with some value,
and every bit set anywhere before the call is still set after it. -/
theorem apply_frame_or (cfg : AttrCfg) (st : FieldState) (buf : List ℕ) (ic : Option Bool)
    (h : cfg.bytepos < buf.length) :
    (AttrByte.apply cfg st buf ic).length = buf.length ∧
    (∀ j, j ≠ cfg.bytepos → (AttrByte.apply cfg st buf ic).getD j 0 = buf.getD j 0) ∧
    (∃ e, (AttrByte.apply cfg st buf ic).getD cfg.bytepos 0 = buf.getD cfg.bytepos 0 ||| e) ∧
    (∀ j, buf.getD j 0 &&& (AttrByte.apply cfg st buf ic).getD j 0 = buf.getD j 0) := by
  have hset : ∀ j, j ≠ cfg.bytepos → (AttrByte.apply cfg st buf ic).getD j 0 = buf.getD j 0 := by
    intro j hj
    simp only [AttrByte.apply, List.getD_eq_getElem?_getD]
    rw [List.getElem?_set_ne (Ne.symm hj)]
  have hat : (AttrByte.apply cfg st buf ic).getD cfg.bytepos 0 =
      buf.getD cfg.bytepos 0 ||| encodeByteF cfg st (ic.getD st.is_control) := by
    simp only [AttrByte.apply, List.getD_eq_getElem?_getD]
    rw [List.getElem?_set_self h]
    rfl
  refine ⟨apply_length cfg st buf ic, hset, ⟨_, hat⟩, ?_⟩
  intro j
  by_cases hj : j = cfg.bytepos
  · subst hj
    rw [hat]
    exact and_or_self_absorb _ _
  · rw [hset j hj]
    exact Nat.and_self _

/-- Witness for `apply_frame_or`: the on/off field applied onto the
concrete buffer `[9, 9, 9]`. -/
theorem apply_frame_or_witness :
    (AttrByte.apply Settings.on_off ⟨.vbool true, false⟩ [9, 9, 9] (some true)).length =
      ([9, 9, 9] : List ℕ).length ∧
    (∀ j, j ≠ Settings.on_off.bytepos →
      (AttrByte.apply Settings.on_off ⟨.vbool true, false⟩ [9, 9, 9] (some true)).getD j 0 =
        ([9, 9, 9] : List ℕ).getD j 0) ∧
    (∃ e, (AttrByte.apply Settings.on_off ⟨.vbool true, false⟩ [9, 9, 9]
        (some true)).getD Settings.on_off.bytepos 0 =
      ([9, 9, 9] : List ℕ).getD Settings.on_off.bytepos 0 ||| e) ∧
    (∀ j, ([9, 9, 9] : List ℕ).getD j 0 &&&
      (AttrByte.apply Settings.on_off ⟨.vbool true, false⟩ [9, 9, 9] (some true)).getD j 0 =
        ([9, 9, 9] : List ℕ).getD j 0) :=
  apply_frame_or Settings.on_off ⟨.vbool true, false⟩ [9, 9, 9] (some true) (by decide)

theorem aggSetLoop_eq_find (name : String) (values : List AggRow) (sts : List FieldState)
    (code : ℕ) :
    aggSetLoop name values sts code =
      match values.find? (fun r => r.2.1 == code) with
      | some r => (.ok (), applyPattern r.1 sts)
      | none => (.error (toString code ++ " isn't a valid value for " ++ name), sts) := by
  induction values with
  | nil => rfl
  | cons r rest ih =>
    obtain ⟨k, v, nm⟩ := r
    by_cases h : v = code
    · simp [aggSetLoop, h]
    · simp [aggSetLoop, h, ih]

theorem applyPattern_length (k : List (Option ℕ)) :
    ∀ sts : List FieldState, (applyPattern k sts).length = sts.length := by
  induction k with
  | nil => intro sts; simp [applyPattern]
  | cons kv ks ih =>
    intro sts
    cases sts with
    | nil => simp [applyPattern]
    | cons st rest => simp [applyPattern, ih]

theorem applyPattern_getD (k : List (Option ℕ)) :
    ∀ (sts : List FieldState) (m : ℕ),
      (applyPattern k sts).getD m ⟨.vnone, false⟩ =
        if m < sts.length then
          (if m < k.length then
            ⟨optToPyVal (k.getD m none), (sts.getD m ⟨.vnone, false⟩).is_control⟩
           else sts.getD m ⟨.vnone, false⟩)
        else ⟨.vnone, false⟩ := by
  induction k with
  | nil =>
    intro sts m
    by_cases hm : m < sts.length
    · simp [applyPattern, hm, List.getD_eq_getElem?_getD]
    · simp only [applyPattern, if_neg hm, List.getD_eq_getElem?_getD]
      rw [List.getElem?_eq_none (by omega)]
      rfl
  | cons kv ks ih =>
    intro sts m
    cases sts with
    | nil => simp [applyPattern, List.getD_eq_getElem?_getD]
    | cons st rest =>
      cases m with
      | zero => simp [applyPattern, List.getD_eq_getElem?_getD]
      | succ n =>
        simp only [applyPattern, List.getD_eq_getElem?_getD, List.getElem?_cons_succ,
          List.length_cons]
        have hrec := ih rest n
        simp only [List.getD_eq_getElem?_getD] at hrec
        rw [hrec]
        by_cases h1 : n < rest.length <;> by_cases h2 : n < ks.length <;>
          simp [h1, h2, Nat.succ_lt_succ_iff]

/-- **C5** (counterexample): assigning the in-table code 0 ("auto") to
the up/down louver aggregate overwrites the "don't care" slot too: the
position sub-field, previously holding 16, is set to `None` rather than
kept. -/
theorem aggSet_dontcare_cex :
    AttrAggregateEnum.value_set "Wind Direction (Up/Down)" windDirUdValues
      [⟨.vnum 0, false⟩, ⟨.vnum 16, false⟩] (some 0)
      = (.ok (), [⟨.vnum 64, false⟩, ⟨.vnone, false⟩]) ∧
    AttrAggregateEnum.value_set "Wind Direction (Up/Down)" windDirUdValues
      [⟨.vnum 0, false⟩, ⟨.vnum 16, false⟩] (some 0)
      ≠ (.ok (), [⟨.vnum 64, false⟩, ⟨.vnum 16, false⟩]) := by
  constructor
  · decide
  · decide

/-- **C5** (amended): assigning a code present in the table pushes the
matched row's whole pattern down into the sub-fields: a sub-field whose
slot is a literal is set to that literal, and a sub-field whose slot is
"don't care" (`None`) is set to `None` — overwriting, not keeping, its
previous logical value; `is_control` flags are untouched and sub-fields
beyond the pattern's length keep their state. -/
theorem aggSet_in_table (name : String) (values : List AggRow) (sts : List FieldState)
    (code : ℕ) (row : AggRow)
    (hfind : values.find? (fun r => r.2.1 == code) = some row) :
    AttrAggregateEnum.value_set name values sts (some code) =
      (.ok (), applyPattern row.1 sts) ∧
    (applyPattern row.1 sts).length = sts.length ∧
    (∀ m, m < sts.length →
      (applyPattern row.1 sts).getD m ⟨.vnone, false⟩ =
        if m < row.1.length then
          ⟨optToPyVal (row.1.getD m none), (sts.getD m ⟨.vnone, false⟩).is_control⟩
        else sts.getD m ⟨.vnone, false⟩) := by
  refine ⟨?_, applyPattern_length _ _, ?_⟩
  · show aggSetLoop name values sts code = _
    rw [aggSetLoop_eq_find, hfind]
  · intro m hm
    rw [applyPattern_getD]
    simp [hm]

/-- Witness for `aggSet_in_table`: setting the up/down louver aggregate
to code 0 with its first table row. -/
theorem aggSet_in_table_witness :
    AttrAggregateEnum.value_set "Wind Direction (Up/Down)" windDirUdValues
      [⟨.vnum 0, false⟩, ⟨.vnum 16, false⟩] (some 0) =
      (.ok (), applyPattern ([some 64, none] : List (Option ℕ))
        [⟨.vnum 0, false⟩, ⟨.vnum 16, false⟩]) ∧
    (applyPattern ([some 64, none] : List (Option ℕ))
      [⟨.vnum 0, false⟩, ⟨.vnum 16, false⟩]).length =
      ([⟨.vnum 0, false⟩, ⟨.vnum 16, false⟩] : List FieldState).length ∧
    (∀ m, m < ([⟨.vnum 0, false⟩, ⟨.vnum 16, false⟩] : List FieldState).length →
      (applyPattern ([some 64, none] : List (Option ℕ))
        [⟨.vnum 0, false⟩, ⟨.vnum 16, false⟩]).getD m ⟨.vnone, false⟩ =
        if m < ([some 64, none] : List (Option ℕ)).length then
          ⟨optToPyVal (([some 64, none] : List (Option ℕ)).getD m none),
           (([⟨.vnum 0, false⟩, ⟨.vnum 16, false⟩] : List FieldState).getD m
             ⟨.vnone, false⟩).is_control⟩
        else ([⟨.vnum 0, false⟩, ⟨.vnum 16, false⟩] : List FieldState).getD m ⟨.vnone, false⟩) :=
  aggSet_in_table "Wind Direction (Up/Down)" windDirUdValues
    [⟨.vnum 0, false⟩, ⟨.vnum 16, false⟩] 0 ([some 64, none], 0, "auto") (by decide)

/-- **C6**: assigning a non-`None` code absent from the table raises
`ValueError` and leaves every sub-field state unchanged (the scan
validates before any mutation). -/
theorem aggSet_invalid (name : String) (values : List AggRow) (sts : List FieldState)
    (code : ℕ) (h : ∀ r ∈ values, r.2.1 ≠ code) :
    AttrAggregateEnum.value_set name values sts (some code) =
      (.error (toString code ++ " isn't a valid value for " ++ name), sts) := by
  show aggSetLoop name values sts code = _
  rw [aggSetLoop_eq_find]
  have hnone : values.find? (fun r => r.2.1 == code) = none := by
    rw [List.find?_eq_none]
    intro r hr
    simpa using h r hr
  rw [hnone]

/-- Witness for `aggSet_invalid`: assigning the out-of-table code 99 to
the left/right louver aggregate. -/
theorem aggSet_invalid_witness :
    AttrAggregateEnum.value_set "Wind Direction (Left/Right)" windDirLrValues
      [⟨.vnum 0, true⟩, ⟨.vnum 3, false⟩] (some 99) =
      (.error (toString 99 ++ " isn't a valid value for " ++ "Wind Direction (Left/Right)"),
       [⟨.vnum 0, true⟩, ⟨.vnum 3, false⟩]) :=
  aggSet_invalid "Wind Direction (Left/Right)" windDirLrValues
    [⟨.vnum 0, true⟩, ⟨.vnum 3, false⟩] 99 (by decide)

theorem aggValueLoop_some (values : List AggRow) (vs : List PyVal) (v : ℕ) :
    aggValueLoop values vs = some v →
    ∃ i, i < values.length ∧
      (values.getD i ([], 0, "")).2.1 = v ∧
      rowMatches (values.getD i ([], 0, "")).1 vs = true ∧
      ∀ j, j < i → rowMatches (values.getD j ([], 0, "")).1 vs = false := by
  induction values with
  | nil => intro h; simp [aggValueLoop] at h
  | cons r rest ih =>
    obtain ⟨k, code, nm⟩ := r
    intro h
    simp only [aggValueLoop] at h
    by_cases hm : rowMatches k vs = true
    · rw [if_pos hm] at h
      refine ⟨0, by simp, ?_, ?_, ?_⟩
      · simpa using h
      · simpa using hm
      · intro j hj
        omega
    · rw [if_neg hm] at h
      obtain ⟨i, hi, h1, h2, h3⟩ := ih h
      refine ⟨i + 1, by simpa using Nat.succ_lt_succ hi, ?_, ?_, ?_⟩
      · simpa [List.getD_eq_getElem?_getD] using h1
      · simpa [List.getD_eq_getElem?_getD] using h2
      · intro j hj
        cases j with
        | zero =>
          simpa [List.getD_eq_getElem?_getD] using Bool.of_not_eq_true hm
        | succ n =>
          have := h3 n (by omega)
          simpa [List.getD_eq_getElem?_getD] using this

theorem aggValueLoop_none (values : List AggRow) (vs : List PyVal) :
    aggValueLoop values vs = none →
    ∀ row ∈ values, rowMatches row.1 vs = false := by
  induction values with
  | nil => intro _ row hrow; simp at hrow
  | cons r rest ih =>
    obtain ⟨k, code, nm⟩ := r
    intro h row hrow
    simp only [aggValueLoop] at h
    by_cases hm : rowMatches k vs = true
    · rw [if_pos hm] at h
      exact absurd h (by simp)
    · rw [if_neg hm] at h
      rcases List.mem_cons.mp hrow with hrfl | hmem
      · subst hrfl
        exact Bool.of_not_eq_true hm
      · exact ih h row hmem

theorem rowMatches_replicate_none (n : ℕ) :
    ∀ vs : List PyVal, n ≤ vs.length → rowMatches (List.replicate n none) vs = true := by
  induction n with
  | zero => intro vs _; rfl
  | succ m ih =>
    intro vs hlen
    cases vs with
    | nil => simp at hlen
    | cons v rest =>
      simp only [List.replicate, rowMatches]
      exact ih rest (by simpa using hlen)

/-- **C7**: the aggregate getter is computed from the current sub-field
values alone by a top-to-bottom scan of the pattern table: when it
returns a code, that code belongs to the first row whose pattern matches
(no earlier row matches); when it returns `None`, no row matches; and a
"don't care" (`None`) slot matches any sub-field value (an all-don't-care
pattern matches every value tuple). -/
theorem aggValue_first_match (values : List AggRow) (sts : List FieldState) :
    (∀ v, AttrAggregateEnum.value values sts = some v →
      ∃ i, i < values.length ∧
        (values.getD i ([], 0, "")).2.1 = v ∧
        rowMatches (values.getD i ([], 0, "")).1 (sts.map FieldState.value) = true ∧
        ∀ j, j < i →
          rowMatches (values.getD j ([], 0, "")).1 (sts.map FieldState.value) = false) ∧
    (AttrAggregateEnum.value values sts = none →
      ∀ row ∈ values, rowMatches row.1 (sts.map FieldState.value) = false) ∧
    (∀ (n : ℕ) (vs : List PyVal), n ≤ vs.length →
      rowMatches (List.replicate n none) vs = true) := by
  refine ⟨?_, ?_, rowMatches_replicate_none⟩
  · intro v h
    exact aggValueLoop_some values (sts.map FieldState.value) v h
  · intro h
    exact aggValueLoop_none values (sts.map FieldState.value) h

/-- Witness for `aggValue_first_match`: on the up/down louver table with
sub-field values `(0, 16)` the getter returns code 2, so row index 2 is
the first match. -/
theorem aggValue_first_match_witness :
    ∃ i, i < windDirUdValues.length ∧
      (windDirUdValues.getD i ([], 0, "")).2.1 = 2 ∧
      rowMatches (windDirUdValues.getD i ([], 0, "")).1
        (([⟨.vnum 0, false⟩, ⟨.vnum 16, false⟩] : List FieldState).map FieldState.value) = true ∧
      ∀ j, j < i →
        rowMatches (windDirUdValues.getD j ([], 0, "")).1
          (([⟨.vnum 0, false⟩, ⟨.vnum 16, false⟩] : List FieldState).map FieldState.value) =
          false :=
  (aggValue_first_match windDirUdValues [⟨.vnum 0, false⟩, ⟨.vnum 16, false⟩]).1 2 (by decide)

/-- **C10**: assigning `None` to an aggregate's value is accepted with no
error — even though `None` is never a code in the table — and sets every
sub-field's logical value to `None`, leaving each sub-field's
`is_control` flag unchanged. -/
theorem aggSet_none_clears (name : String) (values : List AggRow) (sts : List FieldState) :
    AttrAggregateEnum.value_set name values sts none =
      (.ok (), sts.map fun st => ⟨.vnone, st.is_control⟩) ∧
    (sts.map fun st => (⟨.vnone, st.is_control⟩ : FieldState)).length = sts.length ∧
    ∀ m, m < sts.length →
      ((sts.map fun st => (⟨.vnone, st.is_control⟩ : FieldState)).getD m
        ⟨.vnone, false⟩).value = .vnone ∧
      ((sts.map fun st => (⟨.vnone, st.is_control⟩ : FieldState)).getD m
        ⟨.vnone, false⟩).is_control = (sts.getD m ⟨.vnone, false⟩).is_control := by
  refine ⟨rfl, by simp, ?_⟩
  intro m hm
  constructor <;>
    simp [List.getD_eq_getElem?_getD, List.getElem?_map, List.getElem?_eq_getElem hm]

/-- Witness for `aggSet_none_clears`: clearing the left/right louver
aggregate. -/
theorem aggSet_none_clears_witness :
    AttrAggregateEnum.value_set "Wind Direction (Left/Right)" windDirLrValues
      [⟨.vnum 0, true⟩, ⟨.vnum 3, false⟩] none =
      (.ok (), ([⟨.vnum 0, true⟩, ⟨.vnum 3, false⟩] : List FieldState).map
        fun st => ⟨.vnone, st.is_control⟩) ∧
    (([⟨.vnum 0, true⟩, ⟨.vnum 3, false⟩] : List FieldState).map
      fun st => (⟨.vnone, st.is_control⟩ : FieldState)).length =
      ([⟨.vnum 0, true⟩, ⟨.vnum 3, false⟩] : List FieldState).length ∧
    ∀ m, m < ([⟨.vnum 0, true⟩, ⟨.vnum 3, false⟩] : List FieldState).length →
      ((([⟨.vnum 0, true⟩, ⟨.vnum 3, false⟩] : List FieldState).map
        fun st => (⟨.vnone, st.is_control⟩ : FieldState)).getD m
          ⟨.vnone, false⟩).value = .vnone ∧
      ((([⟨.vnum 0, true⟩, ⟨.vnum 3, false⟩] : List FieldState).map
        fun st => (⟨.vnone, st.is_control⟩ : FieldState)).getD m
          ⟨.vnone, false⟩).is_control =
        (([⟨.vnum 0, true⟩, ⟨.vnum 3, false⟩] : List FieldState).getD m
          ⟨.vnone, false⟩).is_control :=
  aggSet_none_clears "Wind Direction (Left/Right)" windDirLrValues
    [⟨.vnum 0, true⟩, ⟨.vnum 3, false⟩]

theorem pyIntTimes2_eq_trunc_mul (q : ℚ) (hq : 0 ≤ q) :
    pyIntTimes2 q = ratTruncToNat (q * 2) := by
  have hnum : 0 ≤ q.num := Rat.num_nonneg.mpr hq
  have hq2 : (0 : ℚ) ≤ q * 2 := by positivity
  have hnum2 : 0 ≤ (q * 2).num := Rat.num_nonneg.mpr hq2
  unfold pyIntTimes2 ratTruncToNat
  rw [Int.tdiv_eq_ediv (by positivity) (by positivity),
    Int.tdiv_eq_ediv hnum2 (by positivity)]
  rw [show (q.num * 2) / (q.den : ℤ) = ((q.num * 2) / ((q.den : ℕ) : ℤ)) from rfl,
    ← Rat.floor_intCast_div_natCast, ← Rat.floor_def]
  congr 1
  push_cast
  rw [mul_div_right_comm, Rat.num_div_den]

theorem pyIntTimes2_mkRat_two (n : ℕ) : pyIntTimes2 (mkRat (n : ℤ) 2) = n := by
  have h0 : (0 : ℚ) ≤ mkRat (n : ℤ) 2 := by
    rw [Rat.mkRat_eq_div]
    positivity
  rw [pyIntTimes2_eq_trunc_mul _ h0, Rat.mkRat_eq_div]
  have hcast : ((n : ℤ) : ℚ) / ((2 : ℕ) : ℚ) * 2 = (n : ℚ) := by
    push_cast
    field_simp
  rw [hcast]
  unfold ratTruncToNat
  rw [Rat.num_natCast, Rat.den_natCast]
  simp

/-- The decode-then-reencode round trip of one field at the byte level:
decode the raw byte `b`, then recompute the encoded byte holding the
control-bit decision fixed at the decoded one. -/
def rtByte (cfg : AttrCfg) (st0 : FieldState) (b : ℕ) : ℕ :=
  encodeByteF cfg (decodeByteF cfg st0 b) ((decodeByteF cfg st0 b).is_control)

theorem roundTrips_iff (cfg : AttrCfg) (st0 : FieldState) (buf : List ℕ)
    (hp : cfg.bytepos < 18) :
    roundTrips cfg st0 buf ↔
      rtByte cfg st0 (buf.getD cfg.bytepos 0) =
        (if cfg.mask ≠ 0 then buf.getD cfg.bytepos 0 &&& cfg.mask
         else buf.getD cfg.bytepos 0) := by
  have hgd : ∀ x : ℕ, ((List.replicate 18 0).set cfg.bytepos x).getD cfg.bytepos 0 = x := by
    intro x
    rw [List.getD_eq_getElem?_getD, List.getElem?_set_self (by simpa using hp)]
    rfl
  have hrep : (List.replicate 18 0).getD cfg.bytepos 0 = 0 := by
    rw [List.getD_eq_getElem?_getD, List.getElem?_replicate_of_lt hp]
    rfl
  unfold roundTrips rtByte AttrByte.apply AttrByte.set_from_bytes
  dsimp only
  rw [hgd, hrep, Nat.zero_or]
  exact Iff.rfl

theorem rtByte_st0_irrel (cfg : AttrCfg) (st0 st1 : FieldState) (b : ℕ) :
    rtByte cfg st0 b = rtByte cfg st1 b := by
  by_cases h : cfg.controlbit = 0 <;>
    simp [rtByte, decodeByteF, encodeByteF, h]

theorem rtByte_mask_congr (cfg : AttrCfg) (st0 : FieldState) (b : ℕ) (h : cfg.mask ≠ 0) :
    rtByte cfg st0 b = rtByte cfg st0 (b &&& cfg.mask) := by
  simp [rtByte, decodeByteF, h, and_and_self_right]

theorem and_128_cases (b : ℕ) : b &&& 128 = 0 ∨ b &&& 128 = 128 := by
  have h := Nat.and_two_pow b 7
  norm_num at h
  rw [h]
  cases b.testBit 7 <;> simp

set_option maxRecDepth 10000 in
theorem rt_on_off_bounded :
    ∀ c, c ≤ 3 → c &&& 3 = c → rtByte Settings.on_off ⟨.vnone, false⟩ c = c := by decide

set_option maxRecDepth 10000 in
theorem rt_entrust_bounded :
    ∀ c, c ≤ 12 → c &&& 12 = c → rtByte Settings.entrust ⟨.vnone, false⟩ c = c := by decide

set_option maxRecDepth 40000 in
theorem rt_model_no_bounded :
    ∀ c, c ≤ 127 → c &&& 127 = c → rtByte Settings.model_no ⟨.vnone, false⟩ c = c := by decide

set_option maxRecDepth 10000 in
theorem rt_vacant_bounded :
    ∀ c, c ≤ 1 → c &&& 1 = c → rtByte Settings.vacant_property ⟨.vnone, false⟩ c = c := by
  decide

set_option maxRecDepth 10000 in
theorem rt_self_clean_bounded :
    ∀ c, c ≤ 15 → c &&& 15 = c → rtByte Settings.self_clean ⟨.vnone, false⟩ c = c := by decide

set_option maxRecDepth 80000 in
theorem rt_wind_ud_auto_bounded :
    ∀ c, c ≤ 192 → c &&& 192 = c → rtByte Settings.wind_ud_auto ⟨.vnone, false⟩ c = c := by
  decide

set_option maxRecDepth 80000 in
theorem rt_wind_ud_pos_bounded :
    ∀ c, c ≤ 240 → c &&& 240 = c → rtByte Settings.wind_ud_pos ⟨.vnone, false⟩ c = c := by
  decide

set_option maxRecDepth 10000 in
theorem rt_wind_lr_auto_bounded :
    ∀ c, c ≤ 3 → c &&& 3 = c → rtByte Settings.wind_lr_auto ⟨.vnone, false⟩ c = c := by decide

set_option maxRecDepth 20000 in
theorem rt_wind_lr_pos_bounded :
    ∀ c, c ≤ 31 → c &&& 31 = c → rtByte Settings.wind_lr_pos ⟨.vnone, false⟩ c = c := by decide

set_option maxRecDepth 40000 in
theorem rt_op_mode_bounded :
    ∀ c, c ≤ 60 → c &&& 60 = c → clearBits c 32 ∈ [0, 8, 16, 12, 4] →
      rtByte Settings.op_mode ⟨.vnone, false⟩ c = c := by decide

set_option maxRecDepth 10000 in
theorem rt_airflow_bounded :
    ∀ c, c ≤ 15 → c &&& 15 = c → clearBits c 8 ∈ [7, 0, 1, 2, 6] →
      rtByte Settings.airflow ⟨.vnone, false⟩ c = c := by decide

theorem rt_cool_hot_zero : rtByte Settings.cool_hot_judge ⟨.vnone, false⟩ 0 = 0 := by decide

theorem rt_masked_of_bounded (cfg : AttrCfg) (hm : cfg.mask ≠ 0) (hp18 : cfg.bytepos < 18)
    (hdec : ∀ c, c ≤ cfg.mask → c &&& cfg.mask = c → rtByte cfg ⟨.vnone, false⟩ c = c) :
    ∀ (st0 : FieldState) (buf : List ℕ), roundTrips cfg st0 buf := by
  intro st0 buf
  rw [roundTrips_iff cfg st0 buf hp18, if_pos hm,
    rtByte_st0_irrel cfg st0 ⟨.vnone, false⟩, rtByte_mask_congr _ _ _ hm]
  exact hdec _ Nat.and_le_right (and_and_self_right _ _)

theorem rt_preset_encode_decode (c : ℕ) :
    pyIntTimes2 (pyToQ (if pyTruthy (PyVal.vnum (mkRat (c : ℤ) 2)) = true
      then PyVal.vnum (mkRat (c : ℤ) 2) else PyVal.vnum 0)) = c := by
  by_cases hc : pyTruthy (PyVal.vnum (mkRat (c : ℤ) 2)) = true
  · rw [if_pos hc]
    simpa [pyToQ] using pyIntTimes2_mkRat_two c
  · rw [if_neg hc]
    have hq0 : mkRat (c : ℤ) 2 = 0 := by
      by_contra hne
      exact hc (by simp [pyTruthy, hne])
    have hc0 : c = 0 := by
      have := (Rat.mkRat_eq_zero (by norm_num)).mp hq0
      exact_mod_cast this
    subst hc0
    simp [pyToQ]
    decide

theorem rt_preset_all (st0 : FieldState) (b : ℕ) :
    rtByte Settings.preset_temp st0 b = b := by
  rw [rtByte_st0_irrel _ st0 ⟨.vnone, false⟩]
  simp only [rtByte, decodeByteF, encodeByteF, Settings.preset_temp]
  norm_num
  rw [rt_preset_encode_decode (clearBits b 128)]
  rcases and_128_cases b with h | h
  · simp [h, clearBits]
  · have hcancel := clearBits_or_cancel b 128
    rw [h] at hcancel
    simp only [h]
    rw [if_neg (by norm_num)]
    exact hcancel

/-- **C3** (counterexample): the decode-then-reencode round trip fails
for the `cool_hot_judge` field configuration: on a buffer whose byte 8
has the masked bit 3 set, decode yields the transformed value 1, but
re-encode (`1 &&& 8 = 0`) writes 0 instead of the original masked bit. -/
theorem roundtrip_cool_hot_cex :
    ¬ roundTrips Settings.cool_hot_judge ⟨.vnone, false⟩ [0, 0, 0, 0, 0, 0, 0, 0, 8] := by
  decide

/-- **C3** (amended): the masked-bits round trip
`decode; re-encode holding the decoded control decision fixed` holds for
ten of the thirteen atomic field configurations of the record on every
buffer long enough to index; for the two enumerated fields `op_mode` and
`airflow` it holds whenever the masked, control-stripped raw byte is a
code present in the field's table; and for `cool_hot_judge` (whose decode
transform has no encode inverse) it holds only when the masked bit is
clear. -/
theorem roundtrip_amended :
    (∀ cfg ∈ [Settings.on_off, Settings.preset_temp, Settings.entrust, Settings.model_no,
        Settings.vacant_property, Settings.self_clean, Settings.wind_ud_auto,
        Settings.wind_ud_pos, Settings.wind_lr_auto, Settings.wind_lr_pos],
      ∀ (st0 : FieldState) (buf : List ℕ), cfg.bytepos < buf.length →
        roundTrips cfg st0 buf) ∧
    (∀ (st0 : FieldState) (buf : List ℕ), Settings.op_mode.bytepos < buf.length →
      stripRaw Settings.op_mode buf ∈ [0, 8, 16, 12, 4] →
        roundTrips Settings.op_mode st0 buf) ∧
    (∀ (st0 : FieldState) (buf : List ℕ), Settings.airflow.bytepos < buf.length →
      stripRaw Settings.airflow buf ∈ [7, 0, 1, 2, 6] →
        roundTrips Settings.airflow st0 buf) ∧
    (∀ (st0 : FieldState) (buf : List ℕ), Settings.cool_hot_judge.bytepos < buf.length →
      buf.getD 8 0 &&& 8 = 0 → roundTrips Settings.cool_hot_judge st0 buf) := by
  refine ⟨?_, ?_, ?_, ?_⟩
  · intro cfg hcfg st0 buf _
    fin_cases hcfg
    · exact rt_masked_of_bounded _ (by decide) (by decide) rt_on_off_bounded st0 buf
    · rw [roundTrips_iff _ _ _ (by decide), if_neg (by decide)]
      exact rt_preset_all st0 _
    · exact rt_masked_of_bounded _ (by decide) (by decide) rt_entrust_bounded st0 buf
    · exact rt_masked_of_bounded _ (by decide) (by decide) rt_model_no_bounded st0 buf
    · exact rt_masked_of_bounded _ (by decide) (by decide) rt_vacant_bounded st0 buf
    · exact rt_masked_of_bounded _ (by decide) (by decide) rt_self_clean_bounded st0 buf
    · exact rt_masked_of_bounded _ (by decide) (by decide) rt_wind_ud_auto_bounded st0 buf
    · exact rt_masked_of_bounded _ (by decide) (by decide) rt_wind_ud_pos_bounded st0 buf
    · exact rt_masked_of_bounded _ (by decide) (by decide) rt_wind_lr_auto_bounded st0 buf
    · exact rt_masked_of_bounded _ (by decide) (by decide) rt_wind_lr_pos_bounded st0 buf
  · intro st0 buf _ hmem
    rw [roundTrips_iff _ _ _ (by decide), if_pos (by decide),
      rtByte_st0_irrel _ st0 ⟨.vnone, false⟩, rtByte_mask_congr _ _ _ (by decide)]
    refine rt_op_mode_bounded _ Nat.and_le_right (and_and_self_right _ _) ?_
    simpa [stripRaw] using hmem
  · intro st0 buf _ hmem
    rw [roundTrips_iff _ _ _ (by decide), if_pos (by decide),
      rtByte_st0_irrel _ st0 ⟨.vnone, false⟩, rtByte_mask_congr _ _ _ (by decide)]
    refine rt_airflow_bounded _ Nat.and_le_right (and_and_self_right _ _) ?_
    simpa [stripRaw] using hmem
  · intro st0 buf _ h8
    rw [roundTrips_iff _ _ _ (by decide), if_pos (by decide),
      rtByte_st0_irrel _ st0 ⟨.vnone, false⟩, rtByte_mask_congr _ _ _ (by decide)]
    have hc : buf.getD Settings.cool_hot_judge.bytepos 0 &&& Settings.cool_hot_judge.mask =
        0 := h8
    rw [hc]
    exact rt_cool_hot_zero

/-- Witness for `roundtrip_amended`: the on/off field on the concrete
buffer `[0, 0, 3]`. -/
theorem roundtrip_amended_witness :
    roundTrips Settings.on_off ⟨.vnone, false⟩ [0, 0, 3] :=
  roundtrip_amended.1 Settings.on_off (by simp) ⟨.vnone, false⟩ [0, 0, 3] (by decide)
